import Mathlib

/-!
Verification of the ER command-center triage subsystem.

The definitions below are a shallow embedding of the Python backend:

* `app/services/triage.py`   — `TriageService._mock_triage` (rule-based fallback classifier);
* `app/api/routes/patients.py` — `_parse_ts`, `_to_iso`, `run_patient_triage`,
  `add_patient_vitals`, `update_patient`, `get_patient_triage_timeline`,
  `shift_patient_triage`, `create_patient`;
* `app/api/routes/prescriptions.py` — `create_prescription`;
* `app/api/routes/triage.py` — `quick_triage`;
* `app/models/triage.py` — the `AITriageResult` row (audit record), in particular
  the Python-side column default of `groq_model`.

Strings are modelled as `List Char` throughout (Python `str` by code points),
machine integers as `Int`/`Nat`, decimals that the claims compare only for
presence/zero as `Int`, and Python `datetime` instants as the integer count of
microseconds since 0001-01-01T00:00:00 (so `datetime.min = 0`), which makes
`timedelta` subtraction and ordering exact.  Fallible Python code is embedded
with `Except Unit`: an `Except.error` is an exception that the Python caller
does not catch.
-/

namespace ERCC

/-! ## Python string primitives on `List Char` -/

/-- Code-point order on characters (Python `<` on single characters). -/
def charLt (a b : Char) : Bool := a.toNat < b.toNat

/-- Lexicographic `<=` on strings by code point (Python `<=` on `str`). -/
def listLe : List Char → List Char → Bool
  | [], _ => true
  | _ :: _, [] => false
  | a :: as, b :: bs => if a = b then listLe as bs else charLt a b

/-- Lexicographic `<` on strings by code point (Python `<` on `str`). -/
def listLt : List Char → List Char → Bool
  | [], [] => false
  | [], _ :: _ => true
  | _ :: _, [] => false
  | a :: as, b :: bs => if a = b then listLt as bs else charLt a b

/-- Does `hay` start with `needle`? -/
def leadsWith : List Char → List Char → Bool
  | [], _ => true
  | _ :: _, [] => false
  | a :: as, b :: bs => a = b && leadsWith as bs

/-- Python `needle in hay` on strings: substring containment. -/
def hasSub (needle : List Char) : List Char → Bool
  | [] => needle.isEmpty
  | c :: rest => leadsWith needle (c :: rest) || hasSub needle rest

/-- ASCII lower-casing of one character (the keyword lists are ASCII, and both
the classifier and its reference lower the complaint with the same function, so
restricting Python's full-Unicode `str.lower` to ASCII is exact on every
comparison made here). -/
def lowerChar (c : Char) : Char :=
  if 'A' ≤ c ∧ c ≤ 'Z' then Char.ofNat (c.toNat + 32) else c

/-- Python `str.lower` (ASCII fragment). -/
def toLowerL (s : List Char) : List Char := s.map lowerChar

/-- Python whitespace test used by `str.strip`. -/
def isWs (c : Char) : Bool := c = ' ' || c = '\t' || c = '\n' || c = '\r'

/-- Python `str.strip()`. -/
def trimL (s : List Char) : List Char :=
  ((s.dropWhile isWs).reverse.dropWhile isWs).reverse

/-- Python `str(x)` of an optional integer (`None` prints as `"None"`). -/
def pyOptIntStr : Option Int → List Char
  | Option.none => "None".data
  | some n => (toString n).data

/-- Membership test for one character (Python `c in s`). -/
def hasC (x : Char) : List Char → Bool
  | [] => false
  | c :: rest => c = x || hasC x rest

/-- Occurrence count of one character (Python `s.count(c)`). -/
def countC (x : Char) : List Char → Nat
  | [] => 0
  | c :: rest => (if c = x then 1 else 0) + countC x rest

/-- Value of a decimal digit character. -/
def digitVal (c : Char) : Nat := c.toNat - 48

/-- Are all characters decimal digits (and the list nonempty)? -/
def allDigits (l : List Char) : Bool := !l.isEmpty && l.all (·.isDigit)

/-- Numeric value of a digit string. -/
def natOfDigits (l : List Char) : Nat := l.foldl (fun a c => a * 10 + digitVal c) 0

/-- Python `int(s)`: optional sign, digits, surrounding whitespace; `none` is a
`ValueError`. -/
def pyInt? (s : List Char) : Option Int :=
  match trimL s with
  | '+' :: rest => if allDigits rest then some (natOfDigits rest) else Option.none
  | '-' :: rest => if allDigits rest then some (-(natOfDigits rest : Int)) else Option.none
  | l => if allDigits l then some (natOfDigits l) else Option.none

/-- Python `s.split(sep)` for a one-character separator (an empty string splits
to `[""]`, like Python). -/
def splitOnChar (sep : Char) (s : List Char) : List (List Char) :=
  match s with
  | [] => [[]]
  | c :: rest =>
    let parts := splitOnChar sep rest
    if c = sep then [] :: parts
    else
      match parts with
      | [] => [[c]]
      | p :: ps => (c :: p) :: ps

/-! ## Proleptic Gregorian calendar (Python `datetime` arithmetic) -/

/-- Gregorian leap-year test. -/
def isLeap (y : Nat) : Bool := (y % 4 == 0 && y % 100 != 0) || y % 400 == 0

/-- Number of days in a month. -/
def daysInMonth (y m : Nat) : Nat :=
  if m == 2 then (if isLeap y then 29 else 28)
  else if m == 4 || m == 6 || m == 9 || m == 11 then 30
  else 31

/-- Days from 0001-01-01 to the first day of year `y`. -/
def daysBeforeYear (y : Nat) : Nat :=
  let p := y - 1
  365 * p + p / 4 - p / 100 + p / 400

/-- Days from the first of the year to the first of month `m`. -/
def daysBeforeMonth (y m : Nat) : Nat :=
  (List.range (m - 1)).foldl (fun acc i => acc + daysInMonth y (i + 1)) 0

/-- Microseconds from 0001-01-01T00:00:00 to the given naive instant.
`datetime.min` is `0` on this scale. -/
def dtMicros (y mo d h mi s us : Nat) : Int :=
  (((((daysBeforeYear y + daysBeforeMonth y mo + (d - 1)) * 24 + h) * 60 + mi) * 60 + s)
      * 1000000 + us : Nat)

/-- Python `datetime.min` (0001-01-01T00:00:00) on the microsecond scale. -/
def datetimeMin : Int := 0

/-- Bound on the normalized day count of a Python `timedelta`
(`timedelta.max` is 999999999 days, 23:59:59.999999; `timedelta.min` is
-999999999 days); constructing one outside this range raises
`OverflowError`. -/
def timedeltaMaxDays : Int := 999999999

/-- Validity of a date/time tuple, as `datetime.fromisoformat` checks it. -/
def validDateTime (y mo d h mi s : Nat) : Bool :=
  1 ≤ y && y ≤ 9999 && 1 ≤ mo && mo ≤ 12 && 1 ≤ d && d ≤ daysInMonth y mo
    && h ≤ 23 && mi ≤ 59 && s ≤ 59

/-- Parse `[.ffffff]`-style fraction digits (1 to 6 of them) into microseconds. -/
def parseFrac? (l : List Char) : Option Nat :=
  if allDigits l && l.length ≤ 6 then
    some (natOfDigits l * 10 ^ (6 - l.length))
  else Option.none

/-- Parse the time tail `HH`, `HH:MM`, `HH:MM:SS` or `HH:MM:SS.ffffff`. -/
def parseTime? : List Char → Option (Nat × Nat × Nat × Nat)
  | [h1, h2] =>
    if allDigits [h1, h2] then some (natOfDigits [h1, h2], 0, 0, 0) else Option.none
  | [h1, h2, ':', m1, m2] =>
    if allDigits [h1, h2] && allDigits [m1, m2] then
      some (natOfDigits [h1, h2], natOfDigits [m1, m2], 0, 0)
    else Option.none
  | h1 :: h2 :: ':' :: m1 :: m2 :: ':' :: s1 :: s2 :: rest =>
    if allDigits [h1, h2] && allDigits [m1, m2] && allDigits [s1, s2] then
      match rest with
      | [] => some (natOfDigits [h1, h2], natOfDigits [m1, m2], natOfDigits [s1, s2], 0)
      | '.' :: frac =>
        match parseFrac? frac with
        | some us => some (natOfDigits [h1, h2], natOfDigits [m1, m2], natOfDigits [s1, s2], us)
        | Option.none => Option.none
      | _ => Option.none
    else Option.none
  | _ => Option.none

/-- Python `datetime.fromisoformat` on the naive extended-format subset the
routes produce: `YYYY-MM-DD`, optionally a single separator character and a
time; a remaining timezone suffix (already stripped by the caller) or any
other malformation is a `ValueError`, returned as `none`. -/
def fromIso? (l : List Char) : Option Int :=
  match l with
  | y1 :: y2 :: y3 :: y4 :: '-' :: m1 :: m2 :: '-' :: d1 :: d2 :: rest =>
    if allDigits [y1, y2, y3, y4] && allDigits [m1, m2] && allDigits [d1, d2] then
      let y := natOfDigits [y1, y2, y3, y4]
      let mo := natOfDigits [m1, m2]
      let d := natOfDigits [d1, d2]
      match rest with
      | [] => if validDateTime y mo d 0 0 0 then some (dtMicros y mo d 0 0 0 0) else Option.none
      | _sep :: timeChars =>
        match parseTime? timeChars with
        | some (h, mi, s, us) =>
          if validDateTime y mo d h mi s then some (dtMicros y mo d h mi s us) else Option.none
        | Option.none => Option.none
    else Option.none
  | _ => Option.none

/-! ## The `_parse_ts` read-path normalizer (`app/api/routes/patients.py:67`) -/

/-- A value handed to `_parse_ts`: `None`, a `datetime` (wall-clock microseconds
plus an optional UTC-offset in microseconds for aware values), or a stored
string. -/
inductive PyTs where
  | none
  | dt (wallMicros : Int) (tzOffsetMicros : Option Int)
  | str (s : List Char)
deriving DecidableEq

/-- Replace the first space of a string by `'T'`
(`s.replace(' ', 'T', 1)` under the guard that a space exists). -/
def replaceFirstSpaceWithT : List Char → List Char
  | [] => []
  | c :: rest => if c = ' ' then 'T' :: rest else c :: replaceFirstSpaceWithT rest

/-- Separator normalization of `_parse_ts` and `_to_iso`: if the string has a
space and no `'T'`, turn the first space into `'T'`. -/
def normalizeSep (s : List Char) : List Char :=
  if hasC ' ' s && !(hasC 'T' s) then replaceFirstSpaceWithT s else s

/-- Split a list at the last occurrence of `c` (Python `s.rfind(c)`), returning
the part before and the part after that occurrence; with no occurrence the
whole list is "before". -/
def splitAtLast (c : Char) (l : List Char) : List Char × List Char :=
  match l with
  | [] => ([], [])
  | x :: xs =>
    if hasC c xs then
      let (b, a) := splitAtLast c xs
      (x :: b, a)
    else if x = c then ([], xs)
    else (x :: xs, [])

/-- Python `int(s)` lifted into `Except`: a `ValueError` becomes `.error ()`
(it is not caught by `_parse_ts`, whose `try` block only wraps the
`fromisoformat` call and the `timedelta` subtraction). -/
def pyIntE (s : List Char) : Except Unit Int :=
  match pyInt? s with
  | some n => Except.ok n
  | Option.none => Except.error ()

/-- Timezone-offset extraction of `_parse_ts` (the `Z` / `'+' in s[10:]` /
`s.count('-') == 3` ladder).  Returns the remaining string and the offset in
microseconds; `.error` is an uncaught `ValueError` from `int(...)` on a
non-numeric offset field. -/
def extractOffset (s : List Char) : Except Unit (List Char × Int) :=
  if s.getLast? = some 'Z' then
    Except.ok (s.dropLast, 0)
  else if hasC '+' (s.drop 10) then
    let (base, tzPart) := splitAtLast '+' s
    let parts := splitOnChar ':' tzPart
    do
      let h ← if (parts.getD 0 []).isEmpty then Except.ok 0 else pyIntE (parts.getD 0 [])
      let m ← if parts.length > 1 then pyIntE (parts.getD 1 []) else Except.ok 0
      Except.ok (base, (h * 3600 + m * 60) * 1000000)
  else if countC '-' s = 3 then
    let (base, tzPart) := splitAtLast '-' s
    let parts := splitOnChar ':' tzPart
    do
      let h ← if (parts.getD 0 []).isEmpty then Except.ok 0 else pyIntE (parts.getD 0 [])
      let m ← if parts.length > 1 then pyIntE (parts.getD 1 []) else Except.ok 0
      Except.ok (base, -((h * 3600 + m * 60) * 1000000))
  else
    Except.ok (s, 0)

/-- Upper end of Python's `datetime` range, 9999-12-31T23:59:59.999999, on the
microsecond scale; `datetime` arithmetic whose result falls outside
`[datetimeMin, datetimeMaxMicros]` raises `OverflowError`. -/
def datetimeMaxMicros : Int := dtMicros 9999 12 31 23 59 59 999999

/-- The string arm of `_parse_ts` after `str(value).strip()`.  The `try` block
catches only `(ValueError, TypeError)`, so besides the `int(...)` failures of
`extractOffset`, two `OverflowError` paths also escape as `.error`: building
`timedelta(hours=..., minutes=...)` whose normalized day count exceeds the
`timedelta` range, and `dt - timedelta(...)` leaving the `datetime` range
(e.g. a positive offset on a date at `datetime.min`). -/
def parseTsStr (raw : List Char) : Except Unit Int :=
  let s := trimL raw
  if s.isEmpty then Except.ok datetimeMin
  else
    let s := normalizeSep s
    match extractOffset s with
    | Except.error e => Except.error e
    | Except.ok (base, off) =>
      match fromIso? base with
      | some v =>
        if Int.fdiv off 86400000000 < -timedeltaMaxDays ∨
            timedeltaMaxDays < Int.fdiv off 86400000000 then
          Except.error ()
        else if v - off < datetimeMin ∨ datetimeMaxMicros < v - off then
          Except.error ()
        else Except.ok (v - off)
      | Option.none => Except.ok datetimeMin

/-- `_parse_ts` (`app/api/routes/patients.py:67-119`): normalize any stored
timestamp to a naive-UTC instant for comparison; parse failures inside the
`try` block fall back to `datetime.min`, while a `ValueError` raised by
`int(...)` during offset extraction and the `OverflowError` of out-of-range
`datetime` arithmetic (also possible in `astimezone` on an aware input) both
escape (`.error`). -/
def parseTs : PyTs → Except Unit Int
  | PyTs.none => Except.ok datetimeMin
  | PyTs.dt w tz =>
    match tz with
    | some o =>
      if w - o < datetimeMin ∨ datetimeMaxMicros < w - o then Except.error ()
      else Except.ok (w - o)
    | Option.none => Except.ok w
  | PyTs.str raw => parseTsStr raw

/-- `_to_iso` (`app/api/routes/patients.py:46-64`) restricted to the stored
string representation (every `applied_at` this file writes is a string): `T`
normalization, then append `"Z"` when no timezone indicator is present and the
string ends in a digit. -/
def toIso : Option (List Char) → Option (List Char)
  | Option.none => Option.none
  | some v =>
    let s := trimL v
    if s.isEmpty then Option.none
    else
      let s := normalizeSep s
      if !(hasC '+' s) && !(hasC 'Z' s) && (s.getLast?.elim false Char.isDigit) then
        s ++ ['Z']
      else s

/-! ## The rule-based fallback classifier
(`TriageService._mock_triage`, `app/services/triage.py:143-196`) -/

/-- A Python scalar as it reaches the classifier's vitals dictionary: the
triage schemas (`app/schemas/triage.py`) supply integers, while
`create_patient` forwards the patient registration schema's raw strings
(`app/schemas/patient.py`, all fields `Optional[str]`) and the store-backed
paths pass `str(...)` renderings. -/
inductive PyScalar where
  | pint (n : Int)
  | pstr (s : List Char)
deriving DecidableEq

/-- Python truthiness of such a scalar: zero and the empty string are falsy. -/
def pyTruthyScalar : PyScalar → Bool
  | PyScalar.pint n => n ≠ 0
  | PyScalar.pstr s => !s.isEmpty

/-- Exact decimal value `mant / 10 ^ scale`, the result of Python `float(...)`
on the vitals value space (plain decimal strings and integers; these are exact
in binary comparison against the integer threshold 90, so the scaled-integer
representation is faithful). -/
structure PyFloat where
  mant : Int
  scale : Nat
deriving DecidableEq

/-- Comparison `float(x) < b` for an integer threshold `b`. -/
def pyFloatLt (q : PyFloat) (b : Int) : Bool := q.mant < b * (10 : Int) ^ q.scale

/-- Python `float(s)` on the plain-decimal subset the vitals strings use
(optional sign, digits with an optional fractional part; exponents and the
named specials are out of the reachable value space); `.error` is a
`ValueError`. -/
def pyFloatE (str : List Char) : Except Unit PyFloat :=
  let l := trimL str
  let sl : Int × List Char :=
    match l with
    | '+' :: r => (1, r)
    | '-' :: r => (-1, r)
    | r => (1, r)
  match splitOnChar '.' sl.2 with
  | [ip] =>
    if allDigits ip then Except.ok ⟨sl.1 * natOfDigits ip, 0⟩ else Except.error ()
  | [ip, fp] =>
    if (allDigits ip || ip.isEmpty) && (allDigits fp || fp.isEmpty)
        && !(ip.isEmpty && fp.isEmpty) then
      Except.ok ⟨sl.1 * (natOfDigits ip * 10 ^ fp.length + natOfDigits fp), fp.length⟩
    else Except.error ()
  | _ => Except.error ()

/-- Python `float(x)` of a vitals scalar. -/
def pyFloatOf : PyScalar → Except Unit PyFloat
  | PyScalar.pint n => Except.ok ⟨n, 0⟩
  | PyScalar.pstr s => pyFloatE s

/-- Vitals record passed to the classifier.  `spo2` — the only field
`_mock_triage` reads — may be an integer (quick/patient triage request
schemas) or a string (registration request passed raw; store-backed paths
pass `str(spo2)`). -/
structure VitalsIn where
  hr : Option PyScalar := Option.none
  bp : Option (List Char) := Option.none
  spo2 : Option PyScalar := Option.none
  temp : Option PyScalar := Option.none
  respiratory_rate : Option PyScalar := Option.none
deriving DecidableEq

/-- Does any keyword of the list occur in the complaint? -/
def anyKw (kws : List (List Char)) (cl : List Char) : Bool :=
  kws.any (fun w => hasSub w cl)

/-- Critical (L1) keyword list of `_mock_triage`. -/
def criticalKws : List (List Char) :=
  ["chest pain".data, "heart attack".data, "stroke".data, "unconscious".data,
   "not breathing".data, "cardiac arrest".data]

/-- Emergent (L2) keyword list of `_mock_triage`. -/
def emergentKws : List (List Char) :=
  ["severe bleeding".data, "head injury".data, "difficulty breathing".data,
   "severe pain".data, "fracture".data]

/-- Urgent (L3) keyword list of `_mock_triage`. -/
def urgentKws : List (List Char) :=
  ["fever".data, "vomiting".data, "abdominal pain".data, "infection".data,
   "moderate pain".data]

/-- Non-urgent (L4) keyword list of `_mock_triage`. -/
def nonUrgentKws : List (List Char) :=
  ["cold".data, "cough".data, "minor cut".data, "rash".data, "follow-up".data,
   "prescription refill".data]

/-- The keyword ladder of `_mock_triage` (lines 149-175): priority, label and
color before the vitals override.  The initial `priority = 3` assignment is the
final default branch. -/
def mockKeywordPLC (cl : List Char) : Int × List Char × List Char :=
  if anyKw criticalKws cl then (1, "L1 - Critical".data, "red".data)
  else if anyKw emergentKws cl then (2, "L2 - Emergent".data, "orange".data)
  else if anyKw urgentKws cl then (3, "L3 - Urgent".data, "yellow".data)
  else if anyKw nonUrgentKws cl then (4, "L4 - Non-Urgent".data, "green".data)
  else (3, "L3 - Urgent".data, "yellow".data)

/-- Result dictionary of `_mock_triage`.  `confidence` is the fixed `0.75`. -/
structure MockResult where
  priority : Int
  priority_label : List Char
  priority_color : List Char
  reasoning : List Char
  recommendations : List (List Char)
  suggested_department : List Char
  estimated_wait_time : List Char
  confidence : Rat
  groq_model : List Char
  processing_time_ms : Int
deriving DecidableEq

/-- Wait-time strings indexed by `priority - 1` in `_mock_triage`. -/
def waitTimes : List (List Char) :=
  ["Immediate".data, "10 minutes".data, "30-60 minutes".data, "1-2 hours".data]

/-- `TriageService._mock_triage`: keyword ladder on the lowered complaint, then
the SpO2 override `if spo2 and float(spo2) < 90` — Python truthiness short
circuits, so a missing SpO2, the integer `0` and the empty string skip the
override (`float` is not even called), while the truthy string `"0"` triggers
it; `float(...)` on a truthy non-numeric string raises a `ValueError` that
`_mock_triage` does not catch (`.error`).  Then the fixed metadata fields.
The complaint is optional (`complaint.lower() if complaint else ""`). -/
def mockTriage (complaint : Option (List Char)) (vitals : Option VitalsIn) :
    Except Unit MockResult :=
  let cl := toLowerL (complaint.getD [])
  let plc0 := mockKeywordPLC cl
  let plcE : Except Unit (Int × List Char × List Char) :=
    match vitals with
    | Option.none => Except.ok plc0
    | some v =>
      match v.spo2 with
      | some x =>
        if pyTruthyScalar x then
          match pyFloatOf x with
          | Except.error e => Except.error e
          | Except.ok q =>
            Except.ok (if pyFloatLt q 90 then (1, "L1 - Critical".data, "red".data) else plc0)
        else Except.ok plc0
      | Option.none => Except.ok plc0
  match plcE with
  | Except.error e => Except.error e
  | Except.ok plc =>
    Except.ok
      { priority := plc.1
        priority_label := plc.2.1
        priority_color := plc.2.2
        reasoning := "Based on chief complaint: ".data ++
          (match complaint with
           | some c => c
           | Option.none => "None".data) ++
          ". Assessment performed using rule-based fallback.".data
        recommendations := ["Clinical assessment required".data, "Monitor vitals".data]
        suggested_department := "Emergency".data
        estimated_wait_time := waitTimes.getD (plc.1 - 1).toNat []
        confidence := 0.75
        groq_model := "mock".data
        processing_time_ms := 50 }

/-- Modelled from the spec: the three-word-list reference classifier of §4.1 /
claim C4 — critical `{chest pain, stroke, cardiac arrest, unconscious}` → 1,
else emergent `{severe bleeding, head injury, difficulty breathing, fracture}`
→ 2, else urgent `{fever, vomiting, abdominal pain, infection}` → 3, else
default 3.  Used only for comparison with `mockTriage`. -/
def specKeywordPriority (complaint : Option (List Char)) : Int :=
  let cl := toLowerL (complaint.getD [])
  if anyKw ["chest pain".data, "stroke".data, "cardiac arrest".data, "unconscious".data] cl
    then 1
  else if anyKw ["severe bleeding".data, "head injury".data, "difficulty breathing".data,
      "fracture".data] cl
    then 2
  else if anyKw ["fever".data, "vomiting".data, "abdominal pain".data, "infection".data] cl
    then 3
  else 3

/-- The amended keyword reference: the source's four word-lists (critical also
contains "heart attack" and "not breathing", emergent also "severe pain",
urgent also "moderate pain", and there is a fourth non-urgent list mapping to
priority 4), else default 3. -/
def amendedKeywordPriority (complaint : Option (List Char)) : Int :=
  let cl := toLowerL (complaint.getD [])
  if anyKw criticalKws cl then 1
  else if anyKw emergentKws cl then 2
  else if anyKw urgentKws cl then 3
  else if anyKw nonUrgentKws cl then 4
  else 3

/-! ## Audit records and route state machines -/

/-- Dictionary a triage engine call returns to the routes (`run_triage`).  The
routes read every field with `.get(...)`, so each is optional; the mock always
fills them, a real LLM response may not. -/
structure EngineResult where
  priority : Option Int
  priority_label : Option (List Char)
  priority_color : Option (List Char)
  reasoning : Option (List Char)
  groq_model : Option (List Char)
deriving DecidableEq

/-- One persisted `AITriageResult` row (`app/models/triage.py`), restricted to
the fields the claims mention.  `groq_model` has the Python-side column default
`"llama-3.3-70b-versatile"`, applied whenever a route constructs the row
without that keyword (the manual-shift route does exactly that). -/
structure EvalRec where
  patient_ref : Option Nat
  priority : Option Int
  priority_label : Option (List Char)
  priority_color : Option (List Char)
  reasoning : Option (List Char)
  groq_model : Option (List Char)
  is_applied : Bool
  applied_at : Option (List Char)
deriving DecidableEq

/-- One `PatientVitals` row: `recorded_at` and `created_at` are stored as
text; `vid` stands for the row identity. -/
structure VitalsRec where
  vid : Nat
  recorded_at : Option (List Char)
  created_at : List Char
  spo2 : Option Int
deriving DecidableEq

/-- The triage-relevant projection of one patient row. -/
structure PatientRow where
  pid : Nat
  priority : Option Int
  priority_label : Option (List Char)
  priority_color : Option (List Char)
  status : List Char
  complaint : Option (List Char)
deriving DecidableEq

/-- Per-patient store a route transaction touches: the patient row, its
vitals and prescription rows, the audit log and the count of alert rows. -/
structure PStore where
  patient : PatientRow
  vitals : List VitalsRec
  prescriptions : List Nat
  evals : List EvalRec
  alerts : Nat
deriving DecidableEq

/-- The applied audit row every engine-backed route writes (`is_applied=True`,
`applied_at` set, output fields copied from the engine dictionary with
`.get`); each call site builds it with this same shape. -/
def mkAppliedEval (pid : Nat) (r : EngineResult) (now : List Char) : EvalRec :=
  { patient_ref := some pid
    priority := r.priority
    priority_label := r.priority_label
    priority_color := r.priority_color
    reasoning := r.reasoning
    groq_model := r.groq_model
    is_applied := true
    applied_at := some now }

/-- Patient row after the routes copy the engine output onto it. -/
def applyResult (p : PatientRow) (r : EngineResult) : PatientRow :=
  { p with priority := r.priority, priority_label := r.priority_label,
           priority_color := r.priority_color }

/-- Registration triage inside `create_patient`
(`app/api/routes/patients.py:480-525`): the freshly created `pending_triage`
patient gets the engine result, `status` becomes `"active"`, and one applied
audit row is appended. -/
def createPatientTriage (p : PatientRow) (r : EngineResult) (now : List Char)
    (evals : List EvalRec) : PatientRow × List EvalRec :=
  ({ applyResult p r with status := "active".data },
   evals ++ [mkAppliedEval p.pid r now])

/-- Explicit re-run (`run_patient_triage`, `app/api/routes/patients.py:972-1078`),
success path: priority fields updated, `pending_triage → active`, one applied
audit row appended. -/
def runPatientTriageOp (s : PStore) (r : EngineResult) (now : List Char) : PStore :=
  { s with
      patient :=
        { applyResult s.patient r with
            status := if s.patient.status = "pending_triage".data
                      then "active".data else s.patient.status }
      evals := s.evals ++ [mkAppliedEval s.patient.pid r now] }

/-- Response payload fragment the write routes return for the secondary
triage step (`"triage": triage_data`, `None` when re-triage failed). -/
structure WriteResp where
  success : Bool
  triage : Option EngineResult
deriving DecidableEq

/-- `add_patient_vitals` (`app/api/routes/patients.py:1243-1442`) after the
patient lookup succeeded: the vitals row is inserted and committed first; the
re-triage block runs under `try/except` — `outcome = some r` is a successful
engine evaluation (priority fields updated, one applied audit row), `none` is
any exception inside the block (engine, reload, audit persistence), which is
only logged.  One alert row is written either way, and the route returns
success with `triage` mirroring the outcome. -/
def addPatientVitalsOp (s : PStore) (v : VitalsRec) (outcome : Option EngineResult)
    (now : List Char) : PStore × WriteResp :=
  let s1 : PStore := { s with vitals := s.vitals ++ [v] }
  match outcome with
  | some r =>
    ({ s1 with
        patient := applyResult s1.patient r
        evals := s1.evals ++ [mkAppliedEval s1.patient.pid r now]
        alerts := s1.alerts + 1 },
     { success := true, triage := some r })
  | Option.none =>
    ({ s1 with alerts := s1.alerts + 1 }, { success := true, triage := Option.none })

/-- `create_prescription` (`app/api/routes/prescriptions.py:98-284`) after the
patient lookup succeeded: the prescription is committed first, then the same
best-effort re-triage block as for vitals, then the medication alert. -/
def createPrescriptionOp (s : PStore) (rx : Nat) (outcome : Option EngineResult)
    (now : List Char) : PStore × WriteResp :=
  let s1 : PStore := { s with prescriptions := s.prescriptions ++ [rx] }
  match outcome with
  | some r =>
    ({ s1 with
        patient := applyResult s1.patient r
        evals := s1.evals ++ [mkAppliedEval s1.patient.pid r now]
        alerts := s1.alerts + 1 },
     { success := true, triage := some r })
  | Option.none =>
    ({ s1 with alerts := s1.alerts + 1 }, { success := true, triage := Option.none })

/-- `update_patient` (`app/api/routes/patients.py:615-758`) specialised to an
edit of the triage-relevant `complaint` field: the field update is committed
first, then the `try/except`-guarded re-triage (no alert is written on this
route). -/
def updatePatientComplaintOp (s : PStore) (newComplaint : Option (List Char))
    (outcome : Option EngineResult) (now : List Char) : PStore × WriteResp :=
  let s1 : PStore := { s with patient := { s.patient with complaint := newComplaint } }
  match outcome with
  | some r =>
    ({ s1 with
        patient := applyResult s1.patient r
        evals := s1.evals ++ [mkAppliedEval s1.patient.pid r now] },
     { success := true, triage := some r })
  | Option.none =>
    (s1, { success := true, triage := Option.none })

/-- Priority labels of `shift_patient_triage`. -/
def priorityLabel (v : Int) : List Char :=
  if v = 1 then "L1 - Critical".data
  else if v = 2 then "L2 - Emergent".data
  else if v = 3 then "L3 - Urgent".data
  else "L4 - Non-Urgent".data

/-- Priority colors of `shift_patient_triage`. -/
def priorityColor (v : Int) : List Char :=
  if v = 1 then "red".data
  else if v = 2 then "orange".data
  else if v = 3 then "yellow".data
  else "green".data

/-- Outcome of the manual-shift route: an HTTP 400 detail string or success
data (from/to priorities). -/
inductive ShiftOut where
  | err (detail : List Char)
  | ok (fromPriority : Option Int) (toPriority : Int)
deriving DecidableEq

/-- The audit row `shift_patient_triage` writes: reasoning defaults to
`f"Manual triage shift from L{old_priority} to L{new_priority}"`, no
`groq_model` keyword is passed so the column default
`"llama-3.3-70b-versatile"` applies. -/
def mkShiftEval (pid : Nat) (old : Option Int) (v : Int) (reasoning : Option (List Char))
    (now : List Char) : EvalRec :=
  { patient_ref := some pid
    priority := some v
    priority_label := some (priorityLabel v)
    priority_color := some (priorityColor v)
    reasoning := some (reasoning.getD
      ("Manual triage shift from L".data ++ pyOptIntStr old ++ " to L".data
        ++ (toString v).data))
    groq_model := some "llama-3.3-70b-versatile".data
    is_applied := true
    applied_at := some now }

/-- `shift_patient_triage` (`app/api/routes/patients.py:1598-1692`) after the
patient lookup succeeded.  The validity check
`if not new_priority or new_priority not in [1, 2, 3, 4]` raises HTTP 400
before anything is mutated; a valid shift updates the priority fields, appends
the audit row and writes one alert. -/
def shiftPatientTriageOp (s : PStore) (newPriority : Option Int)
    (reasoning : Option (List Char)) (now : List Char) : PStore × ShiftOut :=
  match newPriority with
  | Option.none => (s, ShiftOut.err "Invalid priority level (must be 1-4)".data)
  | some v =>
    if v = 0 ∨ v ∉ ([1, 2, 3, 4] : List Int) then
      (s, ShiftOut.err "Invalid priority level (must be 1-4)".data)
    else
      let old := s.patient.priority
      ({ s with
          patient := { s.patient with
            priority := some v
            priority_label := some (priorityLabel v)
            priority_color := some (priorityColor v) }
          evals := s.evals ++ [mkShiftEval s.patient.pid old v reasoning now]
          alerts := s.alerts + 1 },
       ShiftOut.ok old v)

/-- Multi-patient store for the unassociated quick-triage route. -/
structure Store where
  patients : List PatientRow
  evals : List EvalRec
  alerts : Nat
deriving DecidableEq

/-- `quick_triage` (`app/api/routes/triage.py:18-87`): runs the engine on the
request payload and persists one `AITriageResult` with `patient_id=None`; the
constructor passes neither `is_applied` (column default `False`) nor
`applied_at` (stays `None`), but does pass `groq_model` from the result.  No
patient row or alert is touched. -/
def quickTriageOp (s : Store) (r : EngineResult) : Store :=
  { s with
      evals := s.evals ++
        [{ patient_ref := Option.none
           priority := r.priority
           priority_label := r.priority_label
           priority_color := r.priority_color
           reasoning := r.reasoning
           groq_model := r.groq_model
           is_applied := false
           applied_at := Option.none }] }

/-! ## Triage timeline (`get_patient_triage_timeline`,
`app/api/routes/patients.py:1445-1513`) -/

/-- Sort key of the timeline: `t.applied_at or ''` — the raw stored string,
with `None` (and `''` itself) collapsing to the empty string. -/
def timelineKey (t : EvalRec) : List Char := t.applied_at.getD []

/-- Stable insertion of `x` into a key-sorted list: `x` goes before the first
element whose key is `≥` its own, so elements with equal keys keep their input
order — the stability guarantee of Python `sorted`. -/
def insertByKey {α : Type} (k : α → List Char) (x : α) : List α → List α
  | [] => [x]
  | y :: ys => if listLe (k x) (k y) then x :: y :: ys else y :: insertByKey k x ys

/-- Stable sort by a string key (Python `sorted(l, key=k)`). -/
def sortByKey {α : Type} (k : α → List Char) : List α → List α
  | [] => []
  | x :: xs => insertByKey k x (sortByKey k xs)

/-- One rendered timeline entry (the fields claim C2 speaks about). -/
structure TLEntry where
  fromPriority : Option Int
  toPriority : Option Int
  appliedAt : Option (List Char)
deriving DecidableEq

/-- The `prev_priority` loop of the timeline route: each entry carries the
previous row's priority as `fromPriority` and its own as `toPriority`;
`appliedAt` is rendered with `_to_iso`. -/
def annotate (prev : Option Int) : List EvalRec → List TLEntry
  | [] => []
  | t :: rest =>
    { fromPriority := prev, toPriority := t.priority, appliedAt := toIso t.applied_at }
      :: annotate t.priority rest

/-- `get_patient_triage_timeline`: sort ascending by the raw `applied_at`
string, annotate transitions oldest-first, return reversed (most recent
first). -/
def triageTimeline (evals : List EvalRec) : List TLEntry :=
  (annotate Option.none (sortByKey timelineKey evals)).reverse

/-! ## Latest-vitals selection -/

/-- `_parse_ts(v.recorded_at)` as the routes call it. -/
def recKey (v : VitalsRec) : Except Unit Int :=
  parseTs (match v.recorded_at with
           | some s => PyTs.str s
           | Option.none => PyTs.none)

/-- The running fold of Python `max(..., key=...)`: the current maximum is
replaced only on a strictly greater key, so the first maximal element wins;
a key failure propagates as the uncaught exception. -/
def pyMaxAux (kc : Int) (c : VitalsRec) : List VitalsRec → Except Unit VitalsRec
  | [] => Except.ok c
  | x :: xs =>
    match recKey x with
    | Except.error e => Except.error e
    | Except.ok kx => if kx > kc then pyMaxAux kx x xs else pyMaxAux kc c xs

/-- Latest-vitals selection of the explicit re-run path
(`run_patient_triage`, lines 994-1000; also `batch_triage_patients` and
`recommend_triage_shift`): fetch all rows and take
`max(all_vitals, key=lambda v: _parse_ts(v.recorded_at))` in Python. -/
def latestVitalsByParse : List VitalsRec → Except Unit (Option VitalsRec)
  | [] => Except.ok Option.none
  | x :: xs =>
    match recKey x with
    | Except.error e => Except.error e
    | Except.ok kx => (pyMaxAux kx x xs).map some

/-- Latest-vitals selection of `update_patient` (lines 659-666) and
`create_prescription` (lines 159-165):
`ORDER BY created_at DESC LIMIT 1` on the text column, modelled as the first
row of maximal `created_at` under byte-wise text ordering (C collation; ties
are unordered in SQL and resolved here to the first row). -/
def dbLatestVitals : List VitalsRec → Option VitalsRec
  | [] => Option.none
  | x :: xs =>
    some (xs.foldl (fun c y => if listLt c.created_at y.created_at then y else c) x)

/-! ## Concrete test fixtures -/

/-- Strict comparison of two `_parse_ts` outcomes (false unless both parsed). -/
def exceptLtB : Except Unit Int → Except Unit Int → Bool
  | Except.ok a, Except.ok b => a < b
  | _, _ => false

/-- Audit row fixture: applied at `2026-02-14T10:00:00Z`, priority 1. -/
def c2e1 : EvalRec :=
  { patient_ref := some 1, priority := some 1, priority_label := Option.none,
    priority_color := Option.none, reasoning := Option.none, groq_model := Option.none,
    is_applied := true, applied_at := some "2026-02-14T10:00:00Z".data }

/-- Audit row fixture: applied at `2026-02-14 10:00:05+00:00` (space-separated
form of five seconds later), priority 2. -/
def c2e2 : EvalRec :=
  { c2e1 with priority := some 2, applied_at := some "2026-02-14 10:00:05+00:00".data }

/-- Audit row fixture: applied at `2026-02-14T09:59:58Z`, priority 3. -/
def c2e3 : EvalRec :=
  { c2e1 with priority := some 3, applied_at := some "2026-02-14T09:59:58Z".data }

/-- Vitals fixture recorded at `2026-02-14 10:00:05+00:00` (space-separated). -/
def c8v1 : VitalsRec :=
  { vid := 1, recorded_at := some "2026-02-14 10:00:05+00:00".data,
    created_at := "2026-02-14 10:00:05+00:00".data, spo2 := Option.none }

/-- Vitals fixture recorded seven seconds earlier, `T`-separated. -/
def c8v2 : VitalsRec :=
  { vid := 2, recorded_at := some "2026-02-14T09:59:58Z".data,
    created_at := "2026-02-14T09:59:58Z".data, spo2 := Option.none }

/-- Store fixture: a patient currently at priority L4. -/
def c7Patient : PatientRow :=
  { pid := 1, priority := some 4, priority_label := some "L4 - Non-Urgent".data,
    priority_color := some "green".data, status := "active".data,
    complaint := some "sprained ankle".data }

/-- Store fixture wrapping `c7Patient` with empty history. -/
def c7Store : PStore :=
  { patient := c7Patient, vitals := [], prescriptions := [], evals := [], alerts := 0 }

/-! ## Order lemmas for the code-point string order -/

theorem charEq_of_toNat_eq {a b : Char} (h : a.toNat = b.toNat) : a = b :=
  Char.eq_of_val_eq (UInt32.ext h)

theorem listLe_refl (a : List Char) : listLe a a = true := by
  induction a with
  | nil => rfl
  | cons x xs ih => simp [listLe, ih]

theorem listLe_cons (x y : Char) (xs ys : List Char) :
    listLe (x :: xs) (y :: ys) = if x = y then listLe xs ys else charLt x y := rfl

theorem listLt_cons (x y : Char) (xs ys : List Char) :
    listLt (x :: xs) (y :: ys) = if x = y then listLt xs ys else charLt x y := rfl

theorem charLt_of_ne_of_not_lt {x y : Char} (hxy : x ≠ y) (h : charLt x y = false) :
    charLt y x = true := by
  simp only [charLt, decide_eq_true_eq, decide_eq_false_iff_not] at h ⊢
  have hne : ¬ x.toNat = y.toNat := fun hh => hxy (charEq_of_toNat_eq hh)
  omega

theorem listLe_total (a b : List Char) : listLe a b = true ∨ listLe b a = true := by
  induction a generalizing b with
  | nil => exact Or.inl rfl
  | cons x xs ih =>
    cases b with
    | nil => exact Or.inr rfl
    | cons y ys =>
      by_cases hxy : x = y
      · subst hxy
        rw [listLe_cons, listLe_cons, if_pos rfl, if_pos rfl]
        exact ih ys
      · have hyx : y ≠ x := fun h => hxy h.symm
        rcases Bool.eq_false_or_eq_true (charLt x y) with hc | hc
        · exact Or.inl (by rw [listLe_cons, if_neg hxy]; exact hc)
        · exact Or.inr (by rw [listLe_cons, if_neg hyx]; exact charLt_of_ne_of_not_lt hxy hc)

theorem charLt_trans {x y z : Char} (h1 : charLt x y = true) (h2 : charLt y z = true) :
    charLt x z = true := by
  simp only [charLt, decide_eq_true_eq] at h1 h2 ⊢
  omega

theorem charLt_ne {x y : Char} (h : charLt x y = true) : x ≠ y := by
  intro he
  subst he
  simp [charLt] at h

theorem listLe_trans {a b c : List Char} (hab : listLe a b = true)
    (hbc : listLe b c = true) : listLe a c = true := by
  induction a generalizing b c with
  | nil => rfl
  | cons x xs ih =>
    cases b with
    | nil => simp [listLe] at hab
    | cons y ys =>
      cases c with
      | nil => simp [listLe] at hbc
      | cons z zs =>
        rw [listLe_cons] at hab hbc ⊢
        by_cases hxy : x = y
        · subst hxy
          rw [if_pos rfl] at hab
          by_cases hxz : x = z
          · subst hxz
            rw [if_pos rfl] at hbc ⊢
            exact ih hab hbc
          · rw [if_neg hxz] at hbc ⊢
            exact hbc
        · rw [if_neg hxy] at hab
          by_cases hyz : y = z
          · subst hyz
            rw [if_neg hxy]
            exact hab
          · rw [if_neg hyz] at hbc
            have h3 := charLt_trans hab hbc
            rw [if_neg (charLt_ne h3)]
            exact h3

theorem listLt_imp_le {a b : List Char} (h : listLt a b = true) : listLe a b = true := by
  induction a generalizing b with
  | nil => rfl
  | cons x xs ih =>
    cases b with
    | nil => simp [listLt] at h
    | cons y ys =>
      rw [listLt_cons] at h
      rw [listLe_cons]
      by_cases hxy : x = y
      · rw [if_pos hxy] at h
        rw [if_pos hxy]
        exact ih h
      · rw [if_neg hxy] at h
        rw [if_neg hxy]
        exact h

theorem listLt_false_imp_le {a b : List Char} (h : listLt a b = false) :
    listLe b a = true := by
  induction a generalizing b with
  | nil =>
    cases b with
    | nil => rfl
    | cons y ys => simp [listLt] at h
  | cons x xs ih =>
    cases b with
    | nil => rfl
    | cons y ys =>
      rw [listLt_cons] at h
      rw [listLe_cons]
      by_cases hxy : x = y
      · subst hxy
        rw [if_pos rfl] at h
        rw [if_pos rfl]
        exact ih h
      · rw [if_neg hxy] at h
        rw [if_neg (fun hh => hxy hh.symm)]
        exact charLt_of_ne_of_not_lt hxy h

/-! ## Stable-sort lemmas -/

theorem perm_insertByKey {α : Type} (k : α → List Char) (x : α) (l : List α) :
    (insertByKey k x l).Perm (x :: l) := by
  induction l with
  | nil => exact List.Perm.refl _
  | cons y ys ih =>
    by_cases h : listLe (k x) (k y) = true
    · rw [insertByKey, if_pos h]
    · rw [insertByKey, if_neg h]
      exact ((ih.cons y).trans (List.Perm.swap x y ys))

theorem perm_sortByKey {α : Type} (k : α → List Char) (l : List α) :
    (sortByKey k l).Perm l := by
  induction l with
  | nil => exact List.Perm.refl _
  | cons x xs ih =>
    exact (perm_insertByKey k x (sortByKey k xs)).trans (ih.cons x)

theorem mem_insertByKey {α : Type} {k : α → List Char} {x a : α} {l : List α}
    (h : a ∈ insertByKey k x l) : a = x ∨ a ∈ l :=
  (perm_insertByKey k x l).subset h |> List.mem_cons.mp

theorem pairwise_insertByKey {α : Type} (k : α → List Char) (x : α) {l : List α}
    (hl : l.Pairwise (fun a b => listLe (k a) (k b) = true)) :
    (insertByKey k x l).Pairwise (fun a b => listLe (k a) (k b) = true) := by
  induction l with
  | nil => simp [insertByKey]
  | cons y ys ih =>
    rcases List.pairwise_cons.mp hl with ⟨hy, hys⟩
    by_cases h : listLe (k x) (k y) = true
    · rw [insertByKey, if_pos h]
      refine List.pairwise_cons.mpr ⟨?_, hl⟩
      intro b hb
      rcases List.mem_cons.mp hb with hb | hb
      · exact hb ▸ h
      · exact listLe_trans h (hy b hb)
    · rw [insertByKey, if_neg h]
      refine List.pairwise_cons.mpr ⟨?_, ih hys⟩
      intro b hb
      rcases mem_insertByKey hb with hb | hb
      · rw [hb]
        rcases listLe_total (k x) (k y) with hc | hc
        · exact absurd hc h
        · exact hc
      · exact hy b hb

theorem pairwise_sortByKey {α : Type} (k : α → List Char) (l : List α) :
    (sortByKey k l).Pairwise (fun a b => listLe (k a) (k b) = true) := by
  induction l with
  | nil => simp [sortByKey]
  | cons x xs ih => exact pairwise_insertByKey k x ih

/-! ## Annotation lemmas for the timeline loop -/

theorem annotate_map_toPriority (prev : Option Int) (l : List EvalRec) :
    (annotate prev l).map TLEntry.toPriority = l.map EvalRec.priority := by
  induction l generalizing prev with
  | nil => rfl
  | cons t rest ih => simp [annotate, ih]

theorem annotate_chain (prev : Option Int) (l : List EvalRec) :
    List.Chain' (fun x y => y.fromPriority = x.toPriority) (annotate prev l) := by
  induction l generalizing prev with
  | nil => exact List.chain'_nil
  | cons t rest ih =>
    rw [annotate]
    apply List.chain'_cons'.mpr
    refine ⟨?_, ih t.priority⟩
    intro y hy
    cases rest with
    | nil => simp [annotate] at hy
    | cons u us =>
      simp only [annotate, List.head?_cons, Option.mem_def, Option.some.injEq] at hy
      subst hy
      rfl

theorem annotate_head (prev : Option Int) (l : List EvalRec) (e : TLEntry)
    (h : (annotate prev l).head? = some e) : e.fromPriority = prev := by
  cases l with
  | nil => simp [annotate] at h
  | cons t rest =>
    simp only [annotate, List.head?_cons, Option.some.injEq] at h
    subst h
    rfl

/-! ## Claim C1 -/

/-- C1: after every successful engine evaluation (registration triage,
explicit re-run, vitals-triggered or prescription-triggered re-triage) and
after every valid manual shift, exactly one new audit row has been appended,
and the patient's stored priority equals the `priority` of the most recently
appended evaluation. -/
theorem c1_eval_append_roundtrip :
    (∀ (p : PatientRow) (r : EngineResult) (now : List Char) (evals : List EvalRec),
        (createPatientTriage p r now evals).2 = evals ++ [mkAppliedEval p.pid r now] ∧
        (createPatientTriage p r now evals).2.getLast?.map EvalRec.priority
          = some (createPatientTriage p r now evals).1.priority) ∧
    (∀ (s : PStore) (r : EngineResult) (now : List Char),
        (runPatientTriageOp s r now).evals = s.evals ++ [mkAppliedEval s.patient.pid r now] ∧
        (runPatientTriageOp s r now).evals.getLast?.map EvalRec.priority
          = some (runPatientTriageOp s r now).patient.priority) ∧
    (∀ (s : PStore) (v : VitalsRec) (r : EngineResult) (now : List Char),
        (addPatientVitalsOp s v (some r) now).1.evals
          = s.evals ++ [mkAppliedEval s.patient.pid r now] ∧
        (addPatientVitalsOp s v (some r) now).1.evals.getLast?.map EvalRec.priority
          = some (addPatientVitalsOp s v (some r) now).1.patient.priority) ∧
    (∀ (s : PStore) (rx : Nat) (r : EngineResult) (now : List Char),
        (createPrescriptionOp s rx (some r) now).1.evals
          = s.evals ++ [mkAppliedEval s.patient.pid r now] ∧
        (createPrescriptionOp s rx (some r) now).1.evals.getLast?.map EvalRec.priority
          = some (createPrescriptionOp s rx (some r) now).1.patient.priority) ∧
    (∀ (s : PStore) (v : Int) (rsn : Option (List Char)) (now : List Char),
        v ∈ ([1, 2, 3, 4] : List Int) →
        (shiftPatientTriageOp s (some v) rsn now).1.evals
          = s.evals ++ [mkShiftEval s.patient.pid s.patient.priority v rsn now] ∧
        (shiftPatientTriageOp s (some v) rsn now).1.evals.getLast?.map EvalRec.priority
          = some (shiftPatientTriageOp s (some v) rsn now).1.patient.priority) := by
  refine ⟨?_, ?_, ?_, ?_, ?_⟩
  · intro p r now evals
    exact ⟨rfl, by simp [createPatientTriage, mkAppliedEval, applyResult,
      List.getLast?_concat]⟩
  · intro s r now
    exact ⟨rfl, by simp [runPatientTriageOp, mkAppliedEval, applyResult,
      List.getLast?_concat]⟩
  · intro s v r now
    exact ⟨rfl, by simp [addPatientVitalsOp, mkAppliedEval, applyResult,
      List.getLast?_concat]⟩
  · intro s rx r now
    exact ⟨rfl, by simp [createPrescriptionOp, mkAppliedEval, applyResult,
      List.getLast?_concat]⟩
  · intro s v rsn now hv
    fin_cases hv
    · exact ⟨by simp [shiftPatientTriageOp], by simp [shiftPatientTriageOp, mkShiftEval,
        List.getLast?_concat]⟩
    · exact ⟨by simp [shiftPatientTriageOp], by simp [shiftPatientTriageOp, mkShiftEval,
        List.getLast?_concat]⟩
    · exact ⟨by simp [shiftPatientTriageOp], by simp [shiftPatientTriageOp, mkShiftEval,
        List.getLast?_concat]⟩
    · exact ⟨by simp [shiftPatientTriageOp], by simp [shiftPatientTriageOp, mkShiftEval,
        List.getLast?_concat]⟩

/-- Witness for C1 at a concrete store, engine result and shift priority. -/
theorem c1_eval_append_roundtrip_witness :
    (2 : Int) ∈ ([1, 2, 3, 4] : List Int) ∧
    (shiftPatientTriageOp c7Store (some 2) Option.none "2026-02-14T12:00:00Z".data).1.evals
      = [mkShiftEval 1 (some 4) 2 Option.none "2026-02-14T12:00:00Z".data] :=
  ⟨by decide,
   by
    have h := (c1_eval_append_roundtrip.2.2.2.2 c7Store 2 Option.none
      "2026-02-14T12:00:00Z".data (by decide)).1
    simpa [c7Store, c7Patient] using h⟩

/-! ## Claim C3 -/

/-- C3: when the primary clinical write (vitals, prescription, patient edit)
has succeeded and the subsequent best-effort re-triage step fails (outcome
`none`, i.e. any exception caught by the route's handler), the caller still
receives a success response with a null triage field, the primary write is
retained, and neither the audit log nor the patient's priority is touched. -/
theorem c3_retriage_best_effort :
    (∀ (s : PStore) (v : VitalsRec) (now : List Char),
        (addPatientVitalsOp s v Option.none now).2
            = { success := true, triage := Option.none } ∧
        (addPatientVitalsOp s v Option.none now).1
            = { s with vitals := s.vitals ++ [v], alerts := s.alerts + 1 }) ∧
    (∀ (s : PStore) (rx : Nat) (now : List Char),
        (createPrescriptionOp s rx Option.none now).2
            = { success := true, triage := Option.none } ∧
        (createPrescriptionOp s rx Option.none now).1
            = { s with prescriptions := s.prescriptions ++ [rx], alerts := s.alerts + 1 }) ∧
    (∀ (s : PStore) (nc : Option (List Char)) (now : List Char),
        (updatePatientComplaintOp s nc Option.none now).2
            = { success := true, triage := Option.none } ∧
        (updatePatientComplaintOp s nc Option.none now).1
            = { s with patient := { s.patient with complaint := nc } }) := by
  exact ⟨fun s v now => ⟨rfl, rfl⟩, fun s rx now => ⟨rfl, rfl⟩, fun s nc now => ⟨rfl, rfl⟩⟩

/-! ## Claim C6 -/

/-- C6: a manual shift whose priority is missing or outside `{1,2,3,4}` is
rejected with the HTTP 400 detail, the store is returned unchanged, and no
audit row is appended. -/
theorem c6_invalid_shift_rejected :
    ∀ (s : PStore) (p : Option Int) (rsn : Option (List Char)) (now : List Char),
      (p = Option.none ∨ ∃ v, p = some v ∧ v ∉ ([1, 2, 3, 4] : List Int)) →
      shiftPatientTriageOp s p rsn now
        = (s, ShiftOut.err "Invalid priority level (must be 1-4)".data) := by
  intro s p rsn now h
  rcases h with h | ⟨v, hp, hv⟩
  · subst h
    rfl
  · subst hp
    rw [shiftPatientTriageOp, if_pos (Or.inr hv)]

/-- Witness for C6 at priority 7. -/
theorem c6_invalid_shift_rejected_witness :
    (some (7 : Int) = Option.none ∨
      ∃ v, some (7 : Int) = some v ∧ v ∉ ([1, 2, 3, 4] : List Int)) ∧
    shiftPatientTriageOp c7Store (some 7) Option.none "2026-02-14T12:00:00Z".data
      = (c7Store, ShiftOut.err "Invalid priority level (must be 1-4)".data) :=
  ⟨Or.inr ⟨7, rfl, by decide⟩,
   c6_invalid_shift_rejected c7Store (some 7) Option.none "2026-02-14T12:00:00Z".data
     (Or.inr ⟨7, rfl, by decide⟩)⟩

/-! ## Claim C10 -/

/-- C10: quick (unassociated) triage leaves every patient row and the alert
table unchanged; its only write is appending exactly one audit row whose
patient reference is null and whose `is_applied` flag is false. -/
theorem c10_quick_triage_frame :
    ∀ (s : Store) (r : EngineResult),
      (quickTriageOp s r).patients = s.patients ∧
      (quickTriageOp s r).alerts = s.alerts ∧
      (quickTriageOp s r).evals = s.evals ++
        [{ patient_ref := Option.none, priority := r.priority,
           priority_label := r.priority_label, priority_color := r.priority_color,
           reasoning := r.reasoning, groq_model := r.groq_model,
           is_applied := false, applied_at := Option.none }] := by
  exact fun s r => ⟨rfl, rfl, rfl⟩

/-! ## Claim C4 -/

/-- Counterexample to C4: on the complaint "cold" the fallback classifier
returns priority 4 (its fourth, non-urgent keyword list), while the spec's
three-word-list reference function returns the default 3 — so the classifier
does not equal the three-list reference. -/
theorem c4_fallback_keywords_cex :
    (mockTriage (some "cold".data) Option.none).map MockResult.priority
      = Except.ok 4 ∧
    specKeywordPriority (some "cold".data) = 3 ∧
    (mockTriage (some "cold".data) Option.none).map MockResult.priority
      ≠ Except.ok (specKeywordPriority (some "cold".data)) := by
  refine ⟨rfl, rfl, ?_⟩
  intro h
  simp only [show (mockTriage (some "cold".data) Option.none).map MockResult.priority
      = Except.ok 4 from rfl,
    show specKeywordPriority (some "cold".data) = 3 from rfl,
    Except.ok.injEq] at h
  exact absurd h (by decide)

/-- C4 amended: the fallback classifier's keyword phase equals the
four-word-list reference — the source's critical list additionally contains
"heart attack" and "not breathing", the emergent list "severe pain", the
urgent list "moderate pain", and a fourth non-urgent list (cold, cough, minor
cut, rash, follow-up, prescription refill) maps to priority 4 — with default 3
(before any SpO2 override, i.e. with no vitals supplied). -/
theorem c4_fallback_keywords_amended :
    ∀ complaint, (mockTriage complaint Option.none).map MockResult.priority
      = Except.ok (amendedKeywordPriority complaint) := by
  intro c
  unfold mockTriage amendedKeywordPriority mockKeywordPLC
  by_cases h1 : anyKw criticalKws (toLowerL (c.getD [])) = true
  · simp [h1, Except.map]
  · by_cases h2 : anyKw emergentKws (toLowerL (c.getD [])) = true
    · simp [h1, h2, Except.map]
    · by_cases h3 : anyKw urgentKws (toLowerL (c.getD [])) = true
      · simp [h1, h2, h3, Except.map]
      · by_cases h4 : anyKw nonUrgentKws (toLowerL (c.getD [])) = true
        · simp [h1, h2, h3, h4, Except.map]
        · simp [h1, h2, h3, h4, Except.map]

/-! ## Claim C5 -/

/-- Counterexample to C5: a vitals record with the integer SpO2 = 0 — as the
quick-triage request schema delivers it — satisfies SpO2 < 90, yet the
fallback classifier returns the keyword priority (here 3 for "fever"), not 1:
`if spo2 and float(spo2) < 90` short-circuits on the falsy `0`. -/
theorem c5_spo2_zero_cex :
    ((0 : Int) < 90) ∧
    (mockTriage (some "fever".data)
        (some { spo2 := some (PyScalar.pint 0) })).map MockResult.priority
      = Except.ok 3 ∧
    (mockTriage (some "fever".data)
        (some { spo2 := some (PyScalar.pint 0) })).map MockResult.priority
      ≠ Except.ok 1 := by
  refine ⟨by decide, rfl, ?_⟩
  intro h
  simp only [show (mockTriage (some "fever".data)
      (some { spo2 := some (PyScalar.pint 0) })).map MockResult.priority
    = Except.ok 3 from rfl, Except.ok.injEq] at h
  exact absurd h (by decide)

/-- C5 amended: the override fires exactly when the SpO2 value is
Python-truthy and its `float` is below 90 — a nonzero integer below 90
(first part) or a non-empty string parsing below 90 (second part) forces
priority 1, label "L1 - Critical" and color red for any complaint; in
particular the registration path's raw string "0" (third part) does trigger
the override, while the integer 0 of the quick-triage schema does not (the
counterexample). -/
theorem c5_spo2_override_amended :
    (∀ (complaint : Option (List Char)) (v : VitalsIn) (n : Int),
      v.spo2 = some (PyScalar.pint n) → n ≠ 0 → n < 90 →
      (mockTriage complaint (some v)).map MockResult.priority = Except.ok 1 ∧
      (mockTriage complaint (some v)).map MockResult.priority_label
        = Except.ok "L1 - Critical".data ∧
      (mockTriage complaint (some v)).map MockResult.priority_color
        = Except.ok "red".data) ∧
    (∀ (complaint : Option (List Char)) (v : VitalsIn) (str : List Char) (q : PyFloat),
      v.spo2 = some (PyScalar.pstr str) → str.isEmpty = false →
      pyFloatE str = Except.ok q → pyFloatLt q 90 = true →
      (mockTriage complaint (some v)).map MockResult.priority = Except.ok 1) ∧
    (mockTriage (some "fever".data)
        (some { spo2 := some (PyScalar.pstr "0".data) })).map MockResult.priority
      = Except.ok 1 := by
  refine ⟨?_, ?_, rfl⟩
  · intro c v n hs hn0 hlt
    obtain ⟨hr, bp, spo2, temp, rr⟩ := v
    dsimp only at hs
    subst hs
    unfold mockTriage
    dsimp only
    rw [show pyTruthyScalar (PyScalar.pint n) = true by
      simp [pyTruthyScalar, hn0]]
    rw [if_pos rfl]
    dsimp only [pyFloatOf]
    rw [show pyFloatLt ⟨n, 0⟩ 90 = true by
      simp only [pyFloatLt, pow_zero, mul_one, decide_eq_true_eq]
      exact hlt]
    rw [if_pos rfl]
    exact ⟨rfl, rfl, rfl⟩
  · intro c v str q hs hne hq hlt
    obtain ⟨hr, bp, spo2, temp, rr⟩ := v
    dsimp only at hs
    subst hs
    unfold mockTriage
    dsimp only
    rw [show pyTruthyScalar (PyScalar.pstr str) = true by
      simp [pyTruthyScalar, hne]]
    rw [if_pos rfl]
    dsimp only [pyFloatOf]
    rw [hq]
    dsimp only
    rw [hlt]
    rw [if_pos rfl]
    rfl

/-- Witness for C5: the integer part at SpO2 = 85, and the string part at the
decimal string "85.5", both with complaint "fever". -/
theorem c5_spo2_override_amended_witness :
    ((85 : Int) ≠ 0 ∧ (85 : Int) < 90) ∧
    (mockTriage (some "fever".data)
        (some { spo2 := some (PyScalar.pint 85) })).map MockResult.priority
      = Except.ok 1 ∧
    (pyFloatE "85.5".data = Except.ok ⟨855, 1⟩ ∧ pyFloatLt ⟨855, 1⟩ 90 = true) ∧
    (mockTriage (some "fever".data)
        (some { spo2 := some (PyScalar.pstr "85.5".data) })).map MockResult.priority
      = Except.ok 1 :=
  ⟨⟨by decide, by decide⟩,
   (c5_spo2_override_amended.1 (some "fever".data)
     { spo2 := some (PyScalar.pint 85) } 85 rfl (by decide) (by decide)).1,
   ⟨rfl, by decide⟩,
   c5_spo2_override_amended.2.1 (some "fever".data)
     { spo2 := some (PyScalar.pstr "85.5".data) } "85.5".data ⟨855, 1⟩ rfl rfl
     rfl (by decide)⟩

/-! ## Claim C7 -/

/-- Counterexample to C7: shifting the L4 patient to priority 2 with no
reason appends a record whose reasoning is "Manual triage shift from L4 to
L2" — not the claimed "Manual shift from L4 to L2" — and whose `groq_model`
is the column default "llama-3.3-70b-versatile" rather than a manual
provenance marker (the route passes no `groq_model` keyword). -/
theorem c7_manual_shift_cex :
    (shiftPatientTriageOp c7Store (some 2) Option.none
        "2026-02-14T12:00:00Z".data).1.evals.map EvalRec.reasoning
      = [some "Manual triage shift from L4 to L2".data] ∧
    (shiftPatientTriageOp c7Store (some 2) Option.none
        "2026-02-14T12:00:00Z".data).1.evals.map EvalRec.reasoning
      ≠ [some "Manual shift from L4 to L2".data] ∧
    (shiftPatientTriageOp c7Store (some 2) Option.none
        "2026-02-14T12:00:00Z".data).1.evals.map EvalRec.groq_model
      = [some "llama-3.3-70b-versatile".data] := by
  refine ⟨rfl, ?_, rfl⟩
  intro h
  rw [show (shiftPatientTriageOp c7Store (some 2) Option.none
      "2026-02-14T12:00:00Z".data).1.evals.map EvalRec.reasoning
    = [some "Manual triage shift from L4 to L2".data] from rfl] at h
  exact absurd h (by decide)

/-- C7 amended: a valid manual shift updates the patient's priority fields
immediately (the operation consumes no engine result at all) and appends one
audit row with `is_applied = true`, reasoning equal to the supplied reason
when given and otherwise the auto-generated
"Manual triage shift from L{old} to L{new}", and `groq_model` equal to the
column default "llama-3.3-70b-versatile" (no manual provenance marker is
stored). -/
theorem c7_manual_shift_amended :
    ∀ (s : PStore) (v : Int) (rsn : Option (List Char)) (now : List Char),
      v ∈ ([1, 2, 3, 4] : List Int) →
      (shiftPatientTriageOp s (some v) rsn now).1.patient.priority = some v ∧
      (shiftPatientTriageOp s (some v) rsn now).1.patient.priority_label
        = some (priorityLabel v) ∧
      (shiftPatientTriageOp s (some v) rsn now).1.patient.priority_color
        = some (priorityColor v) ∧
      (shiftPatientTriageOp s (some v) rsn now).1.evals = s.evals ++
        [{ patient_ref := some s.patient.pid
           priority := some v
           priority_label := some (priorityLabel v)
           priority_color := some (priorityColor v)
           reasoning := some (rsn.getD
             ("Manual triage shift from L".data ++ pyOptIntStr s.patient.priority
               ++ " to L".data ++ (toString v).data))
           groq_model := some "llama-3.3-70b-versatile".data
           is_applied := true
           applied_at := some now }] ∧
      (shiftPatientTriageOp s (some v) rsn now).2 = ShiftOut.ok s.patient.priority v := by
  intro s v rsn now hv
  fin_cases hv <;>
    exact ⟨by simp [shiftPatientTriageOp], by simp [shiftPatientTriageOp],
      by simp [shiftPatientTriageOp], by simp [shiftPatientTriageOp, mkShiftEval],
      by simp [shiftPatientTriageOp]⟩

/-- Witness for C7: the shift of `c7Store` to priority 2 with no reason. -/
theorem c7_manual_shift_amended_witness :
    (2 : Int) ∈ ([1, 2, 3, 4] : List Int) ∧
    (shiftPatientTriageOp c7Store (some 2) Option.none
        "2026-02-14T12:00:00Z".data).1.patient.priority = some 2 :=
  ⟨by decide,
   (c7_manual_shift_amended c7Store 2 Option.none "2026-02-14T12:00:00Z".data
     (by decide)).1⟩

/-! ## Claim C2 -/

/-- Counterexample to C2: for evaluations applied at
"2026-02-14T10:00:00Z" (priority 1), "2026-02-14 10:00:05+00:00" (priority 2)
and "2026-02-14T09:59:58Z" (priority 3), the normalized UTC instants order
them 09:59:58 < 10:00:00 < 10:00:05 (third conjunct via `_parse_ts`), so the
claimed most-recent-first output is priorities [2, 1, 3]; the route, however,
sorts the raw strings — the space-separated string sorts before every
`T`-separated one — and returns priorities [1, 3, 2]. -/
theorem c2_timeline_string_sort_cex :
    (triageTimeline [c2e1, c2e2, c2e3]).map TLEntry.toPriority
      = [some 1, some 3, some 2] ∧
    (triageTimeline [c2e1, c2e2, c2e3]).map TLEntry.toPriority
      ≠ [some 2, some 1, some 3] ∧
    exceptLtB (parseTs (PyTs.str "2026-02-14T09:59:58Z".data))
        (parseTs (PyTs.str "2026-02-14T10:00:00Z".data)) = true ∧
    exceptLtB (parseTs (PyTs.str "2026-02-14T10:00:00Z".data))
        (parseTs (PyTs.str "2026-02-14 10:00:05+00:00".data)) = true := by
  refine ⟨rfl, ?_, rfl, rfl⟩
  intro h
  rw [show (triageTimeline [c2e1, c2e2, c2e3]).map TLEntry.toPriority
    = [some 1, some 3, some 2] from rfl] at h
  exact absurd h (by decide)

/-- C2 amended: the timeline is the reversal of the oldest-first body obtained
by *stable-sorting the raw `applied_at` strings* (missing timestamps collapse
to the empty string) — a sort that agrees with chronological order only for
uniformly formatted timestamps.  The body is a permutation of the patient's
evaluations, is ascending under the raw string order, and the annotation claim
holds relative to it: `toPriority` is each evaluation's own priority, each
entry's `fromPriority` equals the previous entry's priority, and the first
(oldest) entry's `fromPriority` is null. -/
theorem c2_timeline_amended :
    ∀ evals : List EvalRec,
      triageTimeline evals
        = (annotate Option.none (sortByKey timelineKey evals)).reverse ∧
      (sortByKey timelineKey evals).Perm evals ∧
      (sortByKey timelineKey evals).Pairwise
        (fun a b => listLe (timelineKey a) (timelineKey b) = true) ∧
      (annotate Option.none (sortByKey timelineKey evals)).map TLEntry.toPriority
        = (sortByKey timelineKey evals).map EvalRec.priority ∧
      List.Chain' (fun x y => y.fromPriority = x.toPriority)
        (annotate Option.none (sortByKey timelineKey evals)) ∧
      (∀ e, (annotate Option.none (sortByKey timelineKey evals)).head? = some e →
        e.fromPriority = Option.none) := by
  intro evals
  exact ⟨rfl, perm_sortByKey _ _, pairwise_sortByKey _ _,
    annotate_map_toPriority _ _, annotate_chain _ _,
    fun e he => annotate_head _ _ e he⟩

/-- Witness for C2 at the three fixture evaluations: the head of the
oldest-first body is the 10:00:05 entry (smallest raw string) and its
`fromPriority` is null. -/
theorem c2_timeline_amended_witness :
    (annotate Option.none (sortByKey timelineKey [c2e1, c2e2, c2e3])).head?
      = some { fromPriority := Option.none, toPriority := some 2,
               appliedAt := some "2026-02-14T10:00:05+00:00".data } ∧
    ({ fromPriority := Option.none, toPriority := some 2,
       appliedAt := some "2026-02-14T10:00:05+00:00".data } : TLEntry).fromPriority
      = Option.none :=
  ⟨rfl,
   (c2_timeline_amended [c2e1, c2e2, c2e3]).2.2.2.2.2
     { fromPriority := Option.none, toPriority := some 2,
       appliedAt := some "2026-02-14T10:00:05+00:00".data } rfl⟩

/-! ## Claim C8 -/

theorem pyMaxAux_spec :
    ∀ (xs : List VitalsRec) (kc : Int) (c v : VitalsRec),
      recKey c = Except.ok kc → pyMaxAux kc c xs = Except.ok v →
      (v = c ∨ v ∈ xs) ∧
      ∃ kv, recKey v = Except.ok kv ∧ kc ≤ kv ∧
        ∀ u ∈ xs, ∀ ku, recKey u = Except.ok ku → ku ≤ kv := by
  intro xs
  induction xs with
  | nil =>
    intro kc c v hc hm
    rw [pyMaxAux] at hm
    cases hm
    exact ⟨Or.inl rfl, kc, hc, le_refl kc, by simp⟩
  | cons x rest ih =>
    intro kc c v hc hm
    rw [pyMaxAux] at hm
    cases hx : recKey x with
    | error e => rw [hx] at hm; cases hm
    | ok kx =>
      rw [hx] at hm
      dsimp only at hm
      by_cases hgt : kx > kc
      · rw [if_pos hgt] at hm
        obtain ⟨hmem, kv, hkv, hle, hbound⟩ := ih kx x v hx hm
        refine ⟨?_, kv, hkv, le_of_lt (lt_of_lt_of_le hgt hle), ?_⟩
        · rcases hmem with h | h
          · exact Or.inr (h ▸ List.mem_cons_self x rest)
          · exact Or.inr (List.mem_cons_of_mem x h)
        · intro u hu ku hku
          rcases List.mem_cons.mp hu with hu | hu
          · subst hu
            rw [hx] at hku
            cases hku
            exact hle
          · exact hbound u hu ku hku
      · rw [if_neg hgt] at hm
        obtain ⟨hmem, kv, hkv, hle, hbound⟩ := ih kc c v hc hm
        refine ⟨?_, kv, hkv, hle, ?_⟩
        · rcases hmem with h | h
          · exact Or.inl h
          · exact Or.inr (List.mem_cons_of_mem x h)
        · intro u hu ku hku
          rcases List.mem_cons.mp hu with hu | hu
          · subst hu
            rw [hx] at hku
            cases hku
            exact le_trans (le_of_not_lt hgt) hle
          · exact hbound u hu ku hku

theorem dbFold_spec :
    ∀ (xs : List VitalsRec) (c : VitalsRec),
      (xs.foldl (fun c y => if listLt c.created_at y.created_at then y else c) c = c ∨
        xs.foldl (fun c y => if listLt c.created_at y.created_at then y else c) c ∈ xs) ∧
      ∀ u ∈ c :: xs, listLe u.created_at
        (xs.foldl (fun c y => if listLt c.created_at y.created_at then y else c) c).created_at
          = true := by
  intro xs
  induction xs with
  | nil =>
    intro c
    refine ⟨Or.inl rfl, ?_⟩
    intro u hu
    rcases List.mem_singleton.mp hu with rfl
    exact listLe_refl _
  | cons y ys ih =>
    intro c
    rw [List.foldl_cons]
    by_cases hb : listLt c.created_at y.created_at = true
    · rw [if_pos hb]
      obtain ⟨hmem, hbound⟩ := ih y
      refine ⟨?_, ?_⟩
      · rcases hmem with h | h
        · exact Or.inr (by rw [h]; exact List.mem_cons_self y ys)
        · exact Or.inr (List.mem_cons_of_mem y h)
      · intro u hu
        rcases List.mem_cons.mp hu with hu | hu
        · rw [hu]
          exact listLe_trans (listLt_imp_le hb) (hbound y (List.mem_cons_self y ys))
        · exact hbound u hu
    · rw [if_neg hb]
      obtain ⟨hmem, hbound⟩ := ih c
      refine ⟨?_, ?_⟩
      · rcases hmem with h | h
        · exact Or.inl h
        · exact Or.inr (List.mem_cons_of_mem y h)
      · intro u hu
        rcases List.mem_cons.mp hu with hu | hu
        · rw [hu]
          exact hbound c (List.mem_cons_self c ys)
        · rcases List.mem_cons.mp hu with hu | hu
          · rw [hu]
            exact listLe_trans
              (listLt_false_imp_le (Bool.eq_false_iff.mpr hb))
              (hbound c (List.mem_cons_self c ys))
          · exact hbound u (List.mem_cons_of_mem c hu)

/-- Counterexample to C8: with one row recorded (and created) at
"2026-02-14 10:00:05+00:00" and another at "2026-02-14T09:59:58Z", the
`ORDER BY created_at DESC LIMIT 1` selection used by the patient-edit
(`update_patient`) and prescription (`create_prescription`) re-triage paths
returns the `T`-separated row — byte-wise the larger string — even though its
normalized `recorded_at` instant is strictly *older* (third conjunct); the
explicit re-run path's Python-side `max` by `_parse_ts` picks the genuinely
latest row. -/
theorem c8_latest_vitals_cex :
    dbLatestVitals [c8v1, c8v2] = some c8v2 ∧
    latestVitalsByParse [c8v1, c8v2] = Except.ok (some c8v1) ∧
    exceptLtB (recKey c8v2) (recKey c8v1) = true := by
  exact ⟨rfl, rfl, rfl⟩

/-- C8 amended: only the explicit re-run path (`run_patient_triage`, and
likewise `batch_triage_patients` / `recommend_triage_shift`) selects the
observation with the latest `recorded_at` under robust normalized-UTC
comparison — its selection is a member of the list whose `_parse_ts` key is
maximal; the patient-edit and prescription paths instead take the first row
under descending raw-text order of `created_at`, i.e. the row whose
`created_at` string is byte-wise maximal. -/
theorem c8_latest_vitals_amended :
    (∀ (l : List VitalsRec) (v : VitalsRec),
        latestVitalsByParse l = Except.ok (some v) →
        v ∈ l ∧ ∃ kv, recKey v = Except.ok kv ∧
          ∀ u ∈ l, ∀ ku, recKey u = Except.ok ku → ku ≤ kv) ∧
    (∀ (l : List VitalsRec) (v : VitalsRec),
        dbLatestVitals l = some v →
        v ∈ l ∧ ∀ u ∈ l, listLe u.created_at v.created_at = true) := by
  constructor
  · intro l v h
    cases l with
    | nil => simp [latestVitalsByParse] at h
    | cons x xs =>
      rw [latestVitalsByParse] at h
      cases hx : recKey x with
      | error e => rw [hx] at h; cases h
      | ok kx =>
        rw [hx] at h
        dsimp only at h
        cases hm : pyMaxAux kx x xs with
        | error e => rw [hm] at h; cases h
        | ok w =>
          rw [hm] at h
          simp only [Except.map, Except.ok.injEq, Option.some.injEq] at h
          obtain ⟨hmem, kv, hkv, hle, hbound⟩ := pyMaxAux_spec xs kx x w hx hm
          rw [h] at hmem hkv
          refine ⟨?_, kv, hkv, ?_⟩
          · rcases hmem with hh | hh
            · exact (by rw [hh]; exact List.mem_cons_self x xs)
            · exact List.mem_cons_of_mem x hh
          · intro u hu ku hku
            rcases List.mem_cons.mp hu with hu | hu
            · rw [hu, hx] at hku
              cases hku
              exact hle
            · exact hbound u hu ku hku
  · intro l v h
    cases l with
    | nil => cases h
    | cons x xs =>
      rw [dbLatestVitals, Option.some.injEq] at h
      obtain ⟨hmem, hbound⟩ := dbFold_spec xs x
      rw [h] at hmem hbound
      refine ⟨?_, hbound⟩
      rcases hmem with hh | hh
      · exact (by rw [hh]; exact List.mem_cons_self x xs)
      · exact List.mem_cons_of_mem x hh

/-- Witness for C8 at the two fixture rows: the robust selection returns the
10:00:05 row and its key bounds both rows' keys. -/
theorem c8_latest_vitals_amended_witness :
    latestVitalsByParse [c8v1, c8v2] = Except.ok (some c8v1) ∧
    (c8v1 ∈ [c8v1, c8v2] ∧ ∃ kv, recKey c8v1 = Except.ok kv ∧
      ∀ u ∈ [c8v1, c8v2], ∀ ku, recKey u = Except.ok ku → ku ≤ kv) :=
  ⟨rfl, c8_latest_vitals_amended.1 [c8v1, c8v2] c8v1 rfl⟩

/-! ## Claim C9 -/

theorem hasC_nonempty {x : Char} {s : List Char} (h : hasC x s = true) :
    s.isEmpty = false := by
  cases s with
  | nil => simp [hasC] at h
  | cons c rest => rfl

theorem isEmpty_replaceFirst (s : List Char) :
    (replaceFirstSpaceWithT s).isEmpty = s.isEmpty := by
  cases s with
  | nil => rfl
  | cons c rest =>
    rw [replaceFirstSpaceWithT]
    by_cases h : c = ' '
    · rw [if_pos h]; rfl
    · rw [if_neg h]; rfl

theorem hasC_T_replaceFirst {s : List Char} (h : hasC ' ' s = true) :
    hasC 'T' (replaceFirstSpaceWithT s) = true := by
  induction s with
  | nil => simp [hasC] at h
  | cons c rest ih =>
    rw [replaceFirstSpaceWithT]
    by_cases hc : c = ' '
    · rw [if_pos hc]
      simp [hasC]
    · rw [if_neg hc]
      rw [hasC] at h
      rcases Bool.or_eq_true_iff.mp h with hh | hh
      · exact absurd (of_decide_eq_true hh) hc
      · rw [hasC, ih hh]
        simp

theorem normalizeSep_spaceT {s : List Char} (hsp : hasC ' ' s = true)
    (hT : hasC 'T' s = false) : normalizeSep s = replaceFirstSpaceWithT s := by
  rw [normalizeSep, if_pos]
  rw [hsp, hT]
  rfl

theorem normalizeSep_hasT {s : List Char} (hT : hasC 'T' s = true) :
    normalizeSep s = s := by
  rw [normalizeSep, if_neg]
  rw [hT]
  simp

theorem hasC_append (x : Char) (a b : List Char) :
    hasC x (a ++ b) = (hasC x a || hasC x b) := by
  induction a with
  | nil => simp [hasC]
  | cons c rest ih => simp [hasC, ih, Bool.or_assoc]

theorem mem_of_getLastQ {s : List Char} {a : Char} (h : s.getLast? = some a) :
    a ∈ s := by
  induction s with
  | nil => simp at h
  | cons c rest ih =>
    cases rest with
    | nil =>
      simp only [List.getLast?_singleton, Option.some.injEq] at h
      simp [h]
    | cons d ds =>
      rw [List.getLast?_cons_cons] at h
      exact List.mem_cons_of_mem c (ih h)

theorem mem_of_hasC {x : Char} {s : List Char} (h : hasC x s = true) : x ∈ s := by
  induction s with
  | nil => simp [hasC] at h
  | cons c rest ih =>
    rw [hasC] at h
    rcases Bool.or_eq_true_iff.mp h with hh | hh
    · exact List.mem_cons.mpr (Or.inl (of_decide_eq_true hh).symm)
    · exact List.mem_cons_of_mem c (ih hh)

theorem hasC_false_not_mem {x : Char} {s : List Char} (h : hasC x s = false) :
    x ∉ s := by
  induction s with
  | nil => simp
  | cons c rest ih =>
    rw [hasC] at h
    rcases Bool.or_eq_false_iff.mp h with ⟨h1, h2⟩
    intro hm
    rcases List.mem_cons.mp hm with hm | hm
    · rw [hm] at h1
      simp at h1
    · exact ih h2 hm

theorem getLastQ_ne_of_hasC_false {x : Char} {s : List Char} (h : hasC x s = false) :
    s.getLast? ≠ some x := by
  intro hl
  exact hasC_false_not_mem h (mem_of_getLastQ hl)

theorem hasC_drop_false {x : Char} {s : List Char} (h : hasC x s = false) (n : Nat) :
    hasC x (s.drop n) = false := by
  cases hv : hasC x (s.drop n) with
  | false => rfl
  | true => exact absurd (List.mem_of_mem_drop (mem_of_hasC hv)) (hasC_false_not_mem h)

/-- Definitional unfolding of the string arm of `_parse_ts`. -/
theorem parseTsStr_eq (raw : List Char) :
    parseTsStr raw =
      if (trimL raw).isEmpty then Except.ok datetimeMin
      else
        match extractOffset (normalizeSep (trimL raw)) with
        | Except.error e => Except.error e
        | Except.ok (base, off) =>
          match fromIso? base with
          | some v =>
            if Int.fdiv off 86400000000 < -timedeltaMaxDays ∨
                timedeltaMaxDays < Int.fdiv off 86400000000 then
              Except.error ()
            else if v - off < datetimeMin ∨ datetimeMaxMicros < v - off then
              Except.error ()
            else Except.ok (v - off)
          | Option.none => Except.ok datetimeMin := rfl

/-- Counterexample to C9: `_parse_ts` is not total — on
"2026-02-14T10:00:00+aa:bb" the offset-extraction step calls `int("aa")`,
whose `ValueError` is outside the function's `try` block; and on
"0001-01-01T00:00:00+01:00" (a perfectly numeric offset) the subtraction
`dt - timedelta(hours=1)` underflows `datetime.min` and raises
`OverflowError`, which `except (ValueError, TypeError)` does not catch
either.  Both propagate to the caller. -/
theorem c9_parse_ts_raises_cex :
    parseTs (PyTs.str "2026-02-14T10:00:00+aa:bb".data) = Except.error () ∧
    parseTs (PyTs.str "0001-01-01T00:00:00+01:00".data) = Except.error () :=
  ⟨rfl, rfl⟩

/-- C9 amended: `_parse_ts` is not total — it raises `ValueError` on strings
whose extracted timezone-offset digits are non-numeric, and `OverflowError`
when the offset-adjusted instant leaves the `datetime` range (or the offset
leaves the `timedelta` range); see the counterexample.  On every other input
the claim holds as stated: `None` yields `datetime.min`, naive `datetime`
values pass through and aware ones convert to UTC (within range), the
space-separated form of a timestamp parses identically to its `T`-separated
form, a parseable timestamp without any timezone indicator parses identically
to the same string with a `"Z"` suffix (i.e. it is read as UTC), and a string
whose offset extraction is benign but whose body `fromisoformat` rejects falls
back to `datetime.min`. -/
theorem c9_parse_ts_amended :
    parseTs PyTs.none = Except.ok datetimeMin ∧
    (∀ w : Int, parseTs (PyTs.dt w Option.none) = Except.ok w) ∧
    (∀ w o : Int, datetimeMin ≤ w - o → w - o ≤ datetimeMaxMicros →
      parseTs (PyTs.dt w (some o)) = Except.ok (w - o)) ∧
    (∀ s : List Char, trimL s = s → hasC ' ' s = true → hasC 'T' s = false →
      trimL (replaceFirstSpaceWithT s) = replaceFirstSpaceWithT s →
      parseTs (PyTs.str s) = parseTs (PyTs.str (replaceFirstSpaceWithT s))) ∧
    (∀ s : List Char, trimL s = s → trimL (s ++ ['Z']) = s ++ ['Z'] →
      hasC 'T' s = true → hasC 'Z' s = false → hasC '+' s = false →
      countC '-' s = 2 →
      parseTs (PyTs.str (s ++ ['Z'])) = parseTs (PyTs.str s)) ∧
    (∀ (s base : List Char) (off : Int), trimL s = s → s.isEmpty = false →
      extractOffset (normalizeSep s) = Except.ok (base, off) →
      fromIso? base = Option.none →
      parseTs (PyTs.str s) = Except.ok datetimeMin) := by
  refine ⟨rfl, fun w => rfl, ?_, ?_, ?_, ?_⟩
  · intro w o h1 h2
    show (if w - o < datetimeMin ∨ datetimeMaxMicros < w - o then Except.error ()
      else Except.ok (w - o)) = Except.ok (w - o)
    rw [if_neg]
    rintro (h | h)
    · exact absurd h (not_lt.mpr h1)
    · exact absurd h (not_lt.mpr h2)
  · intro s htrim hsp hT htrim2
    show parseTsStr s = parseTsStr (replaceFirstSpaceWithT s)
    rw [parseTsStr_eq, parseTsStr_eq, htrim, htrim2,
      hasC_nonempty hsp,
      show (replaceFirstSpaceWithT s).isEmpty = false by
        rw [isEmpty_replaceFirst]; exact hasC_nonempty hsp,
      normalizeSep_spaceT hsp hT, normalizeSep_hasT (hasC_T_replaceFirst hsp)]
  · intro s htrim htrim2 hT hZ hplus hdash
    show parseTsStr (s ++ ['Z']) = parseTsStr s
    rw [parseTsStr_eq, parseTsStr_eq, htrim, htrim2]
    rw [show (s ++ ['Z']).isEmpty = false by
      cases s with
      | nil => rfl
      | cons c rest => rfl]
    rw [hasC_nonempty hT]
    rw [normalizeSep_hasT hT,
      normalizeSep_hasT (s := s ++ ['Z']) (by rw [hasC_append, hT]; rfl)]
    rw [show extractOffset (s ++ ['Z']) = Except.ok (s, 0) by
      rw [extractOffset, if_pos (List.getLast?_concat s), List.dropLast_concat]]
    rw [show extractOffset s = Except.ok (s, 0) by
      rw [extractOffset, if_neg (getLastQ_ne_of_hasC_false hZ),
        hasC_drop_false hplus 10, hdash]
      simp]
  · intro s base off htrim hne hext hiso
    show parseTsStr s = Except.ok datetimeMin
    rw [parseTsStr_eq, htrim, hne, hext]
    simp only [Bool.false_eq_true, if_false]
    rw [hiso]

/-- Witness for C9: an aware `datetime` one hour east of two-hours-past-min
converts to UTC, the space-separated "2026-02-14 10:00:05+00:00" parses to
the same instant as its `T`-separated normalization, "2026-02-14T10:00:05"
parses identically with and without the `"Z"` suffix, and "garbage" (benign
offset extraction, rejected by `fromisoformat`) parses to `datetime.min`. -/
theorem c9_parse_ts_amended_witness :
    (datetimeMin ≤ (7200000000 : Int) - 3600000000 ∧
      (7200000000 : Int) - 3600000000 ≤ datetimeMaxMicros ∧
      parseTs (PyTs.dt 7200000000 (some 3600000000))
        = Except.ok (7200000000 - 3600000000)) ∧
    (parseTs (PyTs.str "2026-02-14 10:00:05+00:00".data)
      = parseTs (PyTs.str (replaceFirstSpaceWithT "2026-02-14 10:00:05+00:00".data))) ∧
    (parseTs (PyTs.str ("2026-02-14T10:00:05".data ++ ['Z']))
      = parseTs (PyTs.str "2026-02-14T10:00:05".data)) ∧
    parseTs (PyTs.str "garbage".data) = Except.ok datetimeMin :=
  ⟨⟨by decide, by decide,
    c9_parse_ts_amended.2.2.1 7200000000 3600000000 (by decide) (by decide)⟩,
   c9_parse_ts_amended.2.2.2.1 "2026-02-14 10:00:05+00:00".data
     rfl rfl rfl rfl,
   c9_parse_ts_amended.2.2.2.2.1 "2026-02-14T10:00:05".data
     rfl rfl rfl rfl rfl rfl,
   c9_parse_ts_amended.2.2.2.2.2 "garbage".data "garbage".data 0
     rfl rfl rfl rfl⟩

end ERCC
